import Mathlib

/-!
Shallow embedding of `src/utils/shard.rs`: the `ShardNumber`, `ShardCount`,
`ShardIndex`, `ShardSlug` and `TenantShardId` types, their text and binary
encodings, parsing, ordering, and dual-mode (human-readable / binary)
serialization adapters. Machine bytes (`u8`) are modelled as `Nat` with
explicit `< 256` bounds where they matter; text is modelled as `List Char`;
fallible operations return `Except`.

The `hex` crate's `decode_to_slice`/`val` helpers and its `FromHexError` are
embedded from their documented semantics (case-insensitive hex digits, error
variants `InvalidHexCharacter`, `OddLength`, `InvalidStringLength`).
-/

deriving instance DecidableEq for Except

namespace Shard

/-- Error type of the `hex` crate (`hex::FromHexError`), which `shard.rs`
uses as the parse error for both `ShardIndex` and `TenantShardId`. -/
inductive FromHexError where
  | InvalidHexCharacter (c : Char) (index : Nat)
  | OddLength
  | InvalidStringLength
deriving DecidableEq, Repr

/-- Lowercase hex digit for a nibble, as produced by Rust `{:02x}` formatting. -/
def hexDigit (n : Nat) : Char :=
  if n < 10 then Char.ofNat (48 + n) else Char.ofNat (87 + n)

/-- Two-character lowercase hex encoding of one byte (`{:02x}` of a `u8`). -/
def byteToHex (b : Nat) : List Char :=
  [hexDigit (b / 16), hexDigit (b % 16)]

/-- Value of one hex digit, as in the `hex` crate's `val` helper:
`0-9`, `a-f` and `A-F` are accepted (case-insensitive), anything else is
rejected. -/
def hexVal (c : Char) : Option Nat :=
  let n := c.toNat
  if 48 ≤ n ∧ n ≤ 57 then some (n - 48)
  else if 97 ≤ n ∧ n ≤ 102 then some (n - 87)
  else if 65 ≤ n ∧ n ≤ 70 then some (n - 55)
  else none

/-- `hex`-crate digit decoding with the error carrying the offending
character and its index, as in `FromHexError::InvalidHexCharacter`. -/
def hexValE (c : Char) (i : Nat) : Except FromHexError Nat :=
  match hexVal c with
  | some v => .ok v
  | none => .error (.InvalidHexCharacter c i)

/-- The pair-decoding loop of `hex::decode_to_slice`: consumes two hex
characters per output byte, left to right, reporting the first invalid
character together with its index. -/
def hexDecodeLoop : List Char → Nat → Except FromHexError (List Nat)
  | [], _ => .ok []
  | [_], _ => .error .OddLength
  | c0 :: c1 :: rest, i =>
    match hexValE c0 i with
    | .error e => .error e
    | .ok h =>
      match hexValE c1 (i + 1) with
      | .error e => .error e
      | .ok l =>
        match hexDecodeLoop rest (i + 2) with
        | .error e => .error e
        | .ok bs => .ok ((h * 16 + l) :: bs)

/-- `hex::decode_to_slice` into an output buffer of length `outLen`:
rejects odd input length (`OddLength`), then wrong total length
(`InvalidStringLength`), then decodes pairwise. -/
def hexDecodeToSlice (s : List Char) (outLen : Nat) : Except FromHexError (List Nat) :=
  if s.length % 2 ≠ 0 then .error .OddLength
  else if s.length / 2 ≠ outLen then .error .InvalidStringLength
  else hexDecodeLoop s 0

/-- `hex::decode_to_slice` specialised to a 2-byte output buffer
(`[u8; 2]`), as used for the 4-hex-character shard slug in both
`ShardIndex::from_str` and `TenantShardId::from_str`. -/
def hexDecode2 (s : List Char) : Except FromHexError (Nat × Nat) :=
  match s with
  | [c0, c1, c2, c3] =>
    match hexValE c0 0 with
    | .error e => .error e
    | .ok h0 =>
      match hexValE c1 1 with
      | .error e => .error e
      | .ok l0 =>
        match hexValE c2 2 with
        | .error e => .error e
        | .ok h1 =>
          match hexValE c3 3 with
          | .error e => .error e
          | .ok l1 => .ok (h0 * 16 + l0, h1 * 16 + l1)
  | l => if l.length % 2 ≠ 0 then .error .OddLength else .error .InvalidStringLength

/-- Modelled from the spec: `TenantId` (defined in `crate::utils::id`, not
under `src/`) is an opaque identifier exposing (a) a fixed 16-byte raw
representation, (b) hex-text parsing/formatting compatible with exactly 32
characters (via the `hex` crate, so parsing is case-insensitive and
formatting is lowercase), and (c) standard byte-wise equality/ordering. -/
structure TenantId where
  bytes : List Nat
deriving DecidableEq, Repr

/-- A well-formed `TenantId`: exactly 16 bytes, each fitting in a `u8`. -/
def TenantId.valid (t : TenantId) : Prop :=
  t.bytes.length = 16 ∧ ∀ b ∈ t.bytes, b < 256

instance (t : TenantId) : Decidable t.valid := by
  unfold TenantId.valid; infer_instance

/-- Modelled from the spec: `TenantId`'s `Display` is the 32-character
lowercase hex encoding of its 16 bytes. -/
def TenantId.fmt (t : TenantId) : List Char :=
  t.bytes.flatMap byteToHex

/-- Modelled from the spec: `TenantId::from_hex` decodes exactly 32 hex
characters into the 16-byte representation (`FromHex for [u8; 16]`). -/
def TenantId.from_hex (s : List Char) : Except FromHexError TenantId :=
  match hexDecodeToSlice s 16 with
  | .ok bs => .ok ⟨bs⟩
  | .error e => .error e

/-- Modelled from the spec: `TenantId::from_str` is hex-text parsing of
exactly 32 characters. -/
def TenantId.from_str (s : List Char) : Except FromHexError TenantId :=
  TenantId.from_hex s

/-- `pub struct ShardNumber(pub u8)` — the byte is a `Nat`, bounded where
it matters. -/
structure ShardNumber where
  val : Nat
deriving DecidableEq, Repr

/-- `pub struct ShardCount(pub u8)`. -/
structure ShardCount where
  val : Nat
deriving DecidableEq, Repr

/-- `pub struct ShardStripeSize(pub u32)`. -/
structure ShardStripeSize where
  val : Nat
deriving DecidableEq, Repr

/-- `pub struct ShardIndex { shard_number, shard_count }`. -/
structure ShardIndex where
  shard_number : ShardNumber
  shard_count : ShardCount
deriving DecidableEq, Repr

/-- `pub struct TenantShardId { tenant_id, shard_number, shard_count }`. -/
structure TenantShardId where
  tenant_id : TenantId
  shard_number : ShardNumber
  shard_count : ShardCount
deriving DecidableEq, Repr

/-- Well-formedness corresponding to the Rust types: both shard bytes fit
in a `u8`. -/
def ShardIndex.valid (x : ShardIndex) : Prop :=
  x.shard_number.val < 256 ∧ x.shard_count.val < 256

instance (x : ShardIndex) : Decidable x.valid := by
  unfold ShardIndex.valid; infer_instance

/-- Well-formedness corresponding to the Rust types: 16 tenant bytes and
both shard bytes fit in `u8`s. -/
def TenantShardId.wf (x : TenantShardId) : Prop :=
  x.tenant_id.valid ∧ x.shard_number.val < 256 ∧ x.shard_count.val < 256

instance (x : TenantShardId) : Decidable x.wf := by
  unfold TenantShardId.wf; infer_instance

/-- The legacy-sentinel invariant stated by the spec's data model: when
`shard_count == 0`, `shard_number` must also be 0. The Rust type does not
enforce it. -/
def TenantShardId.legacyOk (x : TenantShardId) : Prop :=
  x.shard_count.val = 0 → x.shard_number.val = 0

instance (x : TenantShardId) : Decidable x.legacyOk := by
  unfold TenantShardId.legacyOk; infer_instance

/-- `Display for ShardSlug`: `{:02x}{:02x}` of the parent
`TenantShardId`'s shard number and count. `ShardSlug` itself is a borrowed
view of the parent, so it is modelled as formatting of the parent value. -/
def ShardSlug.fmt (x : TenantShardId) : List Char :=
  byteToHex x.shard_number.val ++ byteToHex x.shard_count.val

/-- `Display for TenantShardId`: `"{tenant_id}-{slug}"` when
`shard_count != 0`, and the bare tenant id in the legacy case. -/
def TenantShardId.fmt (x : TenantShardId) : List Char :=
  if x.shard_count ≠ ShardCount.mk 0 then
    TenantId.fmt x.tenant_id ++ '-' :: ShardSlug.fmt x
  else
    TenantId.fmt x.tenant_id

/-- `Debug for TenantShardId`: delegates to `Display` (`write!(f, "{self}")`). -/
def TenantShardId.debugFmt (x : TenantShardId) : List Char :=
  TenantShardId.fmt x

/-- `Display for ShardIndex`: `{:02x}{:02x}` of shard number and count. -/
def ShardIndex.fmt (x : ShardIndex) : List Char :=
  byteToHex x.shard_number.val ++ byteToHex x.shard_count.val

/-- `Debug for ShardIndex`: delegates to `Display`. -/
def ShardIndex.debugFmt (x : ShardIndex) : List Char :=
  ShardIndex.fmt x

/-- `FromStr for TenantShardId`: length 32 → legacy (whole string is the
tenant id, shard fields zero); length 37 → tenant id from bytes `0..32`,
shard pair hex-decoded from bytes `33..37` (byte 32 is skipped, not
validated); any other length → `InvalidStringLength`. -/
def TenantShardId.from_str (s : List Char) : Except FromHexError TenantShardId :=
  if s.length = 32 then
    match TenantId.from_str s with
    | .ok t => .ok ⟨t, ⟨0⟩, ⟨0⟩⟩
    | .error e => .error e
  else if s.length = 37 then
    match TenantId.from_hex (s.take 32) with
    | .error e => .error e
    | .ok tenant_id =>
      match hexDecode2 ((s.drop 33).take 4) with
      | .error e => .error e
      | .ok p => .ok ⟨tenant_id, ⟨p.1⟩, ⟨p.2⟩⟩
  else
    .error .InvalidStringLength

/-- `FromStr for ShardIndex`: exactly 4 hex characters decoding to
`[shard_number, shard_count]`; any other length → `InvalidStringLength`. -/
def ShardIndex.from_str (s : List Char) : Except FromHexError ShardIndex :=
  if s.length = 4 then
    match hexDecode2 s with
    | .ok p => .ok ⟨⟨p.1⟩, ⟨p.2⟩⟩
    | .error e => .error e
  else
    .error .InvalidStringLength

/-- `From<[u8; 18]> for TenantShardId`: bytes `0..16` are the tenant id,
byte 16 the shard number, byte 17 the shard count. Callers guarantee the
18-byte length (the Rust argument type). -/
def TenantShardId.fromByteArray (b : List Nat) : TenantShardId :=
  ⟨⟨b.take 16⟩, ⟨b.getD 16 0⟩, ⟨b.getD 17 0⟩⟩

/-- `From<[u8; 2]> for ShardIndex`. -/
def ShardIndex.fromByteArray (b : List Nat) : ShardIndex :=
  ⟨⟨b.getD 0 0⟩, ⟨b.getD 1 0⟩⟩

/-- The packed 18-byte array built by `Serialize for TenantShardId` in the
non-human-readable branch: `tenant_id.as_arr()` in positions `0..16`, then
shard number and shard count. -/
def TenantShardId.to_bytes (x : TenantShardId) : List Nat :=
  x.tenant_id.bytes ++ [x.shard_number.val, x.shard_count.val]

/-- The packed 2-byte array built by `Serialize for ShardIndex` in the
non-human-readable branch. -/
def ShardIndex.to_bytes (x : ShardIndex) : List Nat :=
  [x.shard_number.val, x.shard_count.val]

/-- A serialized value: either a string token (human-readable formats) or a
fixed byte sequence (non-human-readable formats). This models the two
shapes the serde adapters in `shard.rs` can emit or accept. -/
inductive SerValue where
  | str (s : List Char)
  | bytes (b : List Nat)
deriving DecidableEq, Repr

/-- Deserialization error: a parse error surfaced through
`serde::de::Error::custom`, or an input of the wrong shape/length
(serde's own length/type error for the `[u8; N]` decode). -/
inductive DeError where
  | custom (e : FromHexError)
  | unexpectedShape
deriving DecidableEq, Repr

/-- `Serialize for TenantShardId`: `collect_str(self)` when the serializer
is human-readable, the packed 18-byte array otherwise. -/
def TenantShardId.serialize (humanReadable : Bool) (x : TenantShardId) : SerValue :=
  if humanReadable then .str x.fmt else .bytes x.to_bytes

/-- `Deserialize for TenantShardId`: the visitor accepts a string via
`TenantShardId::from_str` (errors mapped through `Error::custom`) and a
sequence via the `[u8; 18]` decode followed by `From<[u8; 18]>`; the
human-readable flag only selects the driver entry point
(`deserialize_str` vs `deserialize_tuple(18, ..)`) and the `expecting`
message, so the accepted value shapes are dispatch on the input itself. -/
def TenantShardId.deserialize (v : SerValue) : Except DeError TenantShardId :=
  match v with
  | .str s =>
    match TenantShardId.from_str s with
    | .ok t => .ok t
    | .error e => .error (.custom e)
  | .bytes b =>
    if b.length = 18 then .ok (TenantShardId.fromByteArray b) else .error .unexpectedShape

/-- `Serialize for ShardIndex`: `collect_str(self)` when human-readable,
the packed 2-byte array otherwise. -/
def ShardIndex.serialize (humanReadable : Bool) (x : ShardIndex) : SerValue :=
  if humanReadable then .str x.fmt else .bytes x.to_bytes

/-- `Deserialize for ShardIndex`: string inputs go through
`ShardIndex::from_str`, sequence inputs through the `[u8; 2]` decode and
`From<[u8; 2]>`. -/
def ShardIndex.deserialize (v : SerValue) : Except DeError ShardIndex :=
  match v with
  | .str s =>
    match ShardIndex.from_str s with
    | .ok t => .ok t
    | .error e => .error (.custom e)
  | .bytes b =>
    if b.length = 2 then .ok (ShardIndex.fromByteArray b) else .error .unexpectedShape

/-- Rust `u8::cmp` (numeric comparison), used by every derived `Ord` here. -/
def cmpNat (a b : Nat) : Ordering :=
  if a < b then .lt else if a = b then .eq else .gt

/-- Derived `Ord` of `ShardNumber`: numeric on the wrapped byte. -/
def ShardNumber.cmp (a b : ShardNumber) : Ordering :=
  cmpNat a.val b.val

/-- Derived `Ord` of `ShardCount`: numeric on the wrapped byte. -/
def ShardCount.cmp (a b : ShardCount) : Ordering :=
  cmpNat a.val b.val

/-- Lexicographic byte comparison: derived `Ord` of `[u8; N]`/byte lists. -/
def cmpBytes : List Nat → List Nat → Ordering
  | [], [] => .eq
  | [], _ :: _ => .lt
  | _ :: _, [] => .gt
  | a :: as, b :: bs => (cmpNat a b).then (cmpBytes as bs)

/-- Modelled from the spec: `TenantId`'s standard ordering is byte-wise
lexicographic comparison of its 16-byte representation. -/
def TenantId.cmp (a b : TenantId) : Ordering :=
  cmpBytes a.bytes b.bytes

/-- Derived `Ord` of `ShardIndex`: fields in declaration order, i.e.
lexicographic on `(shard_number, shard_count)`. -/
def ShardIndex.cmp (a b : ShardIndex) : Ordering :=
  (ShardNumber.cmp a.shard_number b.shard_number).then
    (ShardCount.cmp a.shard_count b.shard_count)

/-- Derived `Ord` of `TenantShardId`: fields in declaration order, i.e.
lexicographic on `(tenant_id, shard_number, shard_count)`. -/
def TenantShardId.cmp (a b : TenantShardId) : Ordering :=
  (TenantId.cmp a.tenant_id b.tenant_id).then
    ((ShardNumber.cmp a.shard_number b.shard_number).then
      (ShardCount.cmp a.shard_count b.shard_count))

/-! ## Decoding lemmas -/

theorem hexVal_hexDigit : ∀ n < 16, hexVal (hexDigit n) = some n := by decide

theorem hexValE_hexDigit (n i : Nat) (h : n < 16) : hexValE (hexDigit n) i = .ok n := by
  unfold hexValE
  rw [hexVal_hexDigit n h]

theorem hexDecode2_byteToHex (a b : Nat) (ha : a < 256) (hb : b < 256) :
    hexDecode2 (byteToHex a ++ byteToHex b) = .ok (a, b) := by
  have h1 : a / 16 < 16 := by omega
  have h2 : a % 16 < 16 := by omega
  have h3 : b / 16 < 16 := by omega
  have h4 : b % 16 < 16 := by omega
  simp only [byteToHex, List.cons_append, List.nil_append, hexDecode2,
    hexValE_hexDigit _ _ h1, hexValE_hexDigit _ _ h2, hexValE_hexDigit _ _ h3,
    hexValE_hexDigit _ _ h4, Except.ok.injEq, Prod.mk.injEq]
  omega

theorem hexDecodeLoop_flatMap (bs : List Nat) (h : ∀ b ∈ bs, b < 256) (i : Nat) :
    hexDecodeLoop (bs.flatMap byteToHex) i = .ok bs := by
  induction bs generalizing i with
  | nil => rfl
  | cons b rest ih =>
    have hb : b < 256 := h b (by simp)
    have h1 : b / 16 < 16 := by omega
    have h2 : b % 16 < 16 := by omega
    have hrest : ∀ x ∈ rest, x < 256 := fun x hx => h x (by simp [hx])
    have hsplit : (b :: rest).flatMap byteToHex
        = hexDigit (b / 16) :: hexDigit (b % 16) :: rest.flatMap byteToHex := by
      simp [byteToHex]
    rw [hsplit]
    simp only [hexDecodeLoop, hexValE_hexDigit _ _ h1, hexValE_hexDigit _ _ h2,
      ih hrest (i + 2)]
    have hbb : b / 16 * 16 + b % 16 = b := by omega
    rw [hbb]

theorem flatMap_byteToHex_length (bs : List Nat) :
    (bs.flatMap byteToHex).length = 2 * bs.length := by
  induction bs with
  | nil => rfl
  | cons b rest ih =>
    simp only [List.flatMap_cons, byteToHex, List.length_append, List.length_cons,
      List.length_nil, ih]
    omega

theorem TenantId.fmt_length (t : TenantId) (h : t.valid) : t.fmt.length = 32 := by
  unfold TenantId.fmt
  rw [flatMap_byteToHex_length, h.1]

theorem TenantId.from_hex_fmt (t : TenantId) (h : t.valid) :
    TenantId.from_hex t.fmt = .ok t := by
  unfold TenantId.from_hex hexDecodeToSlice
  rw [TenantId.fmt_length t h]
  simp only [Nat.reduceMod, ne_eq, not_true_eq_false, if_false, reduceIte,
    Nat.reduceDiv, not_false_eq_true]
  unfold TenantId.fmt
  rw [hexDecodeLoop_flatMap t.bytes h.2 0]

theorem TenantShardId.from_str_legacy (t : TenantId) (ht : t.valid) :
    TenantShardId.from_str (TenantId.fmt t) = .ok ⟨t, ⟨0⟩, ⟨0⟩⟩ := by
  have hl := TenantId.fmt_length t ht
  unfold TenantShardId.from_str TenantId.from_str
  rw [hl, TenantId.from_hex_fmt t ht]
  simp

theorem TenantShardId.from_str_sharded (t : TenantId) (sn sc : Nat) (c : Char)
    (ht : t.valid) (hn : sn < 256) (hc : sc < 256) :
    TenantShardId.from_str (TenantId.fmt t ++ c :: (byteToHex sn ++ byteToHex sc))
      = .ok ⟨t, ⟨sn⟩, ⟨sc⟩⟩ := by
  have hl := TenantId.fmt_length t ht
  have hlen : (TenantId.fmt t ++ c :: (byteToHex sn ++ byteToHex sc)).length = 37 := by
    simp [byteToHex, hl]
  have htake : (TenantId.fmt t ++ c :: (byteToHex sn ++ byteToHex sc)).take 32
      = TenantId.fmt t := List.take_left' hl
  have hslug : (byteToHex sn ++ byteToHex sc).length = 4 := by simp [byteToHex]
  have hdrop : (TenantId.fmt t ++ c :: (byteToHex sn ++ byteToHex sc)).drop 33
      = byteToHex sn ++ byteToHex sc := by
    have hassoc : TenantId.fmt t ++ c :: (byteToHex sn ++ byteToHex sc)
        = (TenantId.fmt t ++ [c]) ++ (byteToHex sn ++ byteToHex sc) := by simp
    rw [hassoc]
    exact List.drop_left' (by simp [hl])
  have htake4 : (byteToHex sn ++ byteToHex sc).take 4 = byteToHex sn ++ byteToHex sc := by
    rw [← hslug]
    exact List.take_length _
  unfold TenantShardId.from_str
  rw [hlen, htake, hdrop, htake4, TenantId.from_hex_fmt t ht,
    hexDecode2_byteToHex sn sc hn hc]
  simp

/-! ## Ordering lemmas -/

theorem cmpNat_self (a : Nat) : cmpNat a a = .eq := by
  simp [cmpNat]

theorem cmpNat_eq_iff (a b : Nat) : cmpNat a b = .eq ↔ a = b := by
  unfold cmpNat
  by_cases h1 : a < b
  · simp only [h1, if_true]
    constructor
    · intro h; cases h
    · intro h; omega
  · by_cases h2 : a = b <;> simp [h1, h2]

theorem ordering_then_eq (o p : Ordering) : o.then p = .eq ↔ o = .eq ∧ p = .eq := by
  cases o <;> simp [Ordering.then]

theorem ordering_then_of_ne (o p : Ordering) (h : o ≠ .eq) : o.then p = o := by
  cases o <;> simp_all [Ordering.then]

theorem cmpBytes_eq_iff : ∀ x y : List Nat, cmpBytes x y = .eq ↔ x = y := by
  intro x
  induction x with
  | nil => intro y; cases y <;> simp [cmpBytes]
  | cons a as ih =>
    intro y
    cases y with
    | nil => simp [cmpBytes]
    | cons b bs => simp [cmpBytes, ordering_then_eq, cmpNat_eq_iff, ih]

theorem TenantId.cmp_eq_iff (a b : TenantId) : TenantId.cmp a b = .eq ↔ a = b := by
  unfold TenantId.cmp
  rw [cmpBytes_eq_iff]
  constructor
  · intro h; cases a; cases b; simp_all
  · intro h; rw [h]

/-! ## List indexing helper -/

theorem getD_append_right (l₁ l₂ : List Nat) (n : Nat) (h : l₁.length ≤ n) :
    (l₁ ++ l₂).getD n 0 = l₂.getD (n - l₁.length) 0 := by
  simp [List.getD_eq_getElem?_getD, List.getElem?_append_right h]

/-! ## Round-trip lemmas -/

theorem ShardIndex.from_str_fmt_index (x : ShardIndex) (hx : x.valid) :
    ShardIndex.from_str x.fmt = .ok x := by
  obtain ⟨⟨n⟩, ⟨c⟩⟩ := x
  obtain ⟨hn, hc⟩ := hx
  show ShardIndex.from_str (byteToHex n ++ byteToHex c) = .ok ⟨⟨n⟩, ⟨c⟩⟩
  have hlen : (byteToHex n ++ byteToHex c).length = 4 := by simp [byteToHex]
  unfold ShardIndex.from_str
  rw [hlen, hexDecode2_byteToHex n c hn hc]
  rfl

theorem TenantShardId.from_str_fmt (x : TenantShardId) (hw : x.wf) (hleg : x.legacyOk) :
    TenantShardId.from_str x.fmt = .ok x := by
  obtain ⟨t, ⟨n⟩, ⟨c⟩⟩ := x
  obtain ⟨ht, hn, hc⟩ := hw
  by_cases hc0 : c = 0
  · subst hc0
    have hn0 : n = 0 := hleg rfl
    subst hn0
    have hfmt : TenantShardId.fmt ⟨t, ⟨0⟩, ⟨0⟩⟩ = TenantId.fmt t := by
      unfold TenantShardId.fmt
      simp
    show TenantShardId.from_str (TenantShardId.fmt ⟨t, ⟨0⟩, ⟨0⟩⟩) = .ok ⟨t, ⟨0⟩, ⟨0⟩⟩
    rw [hfmt]
    exact TenantShardId.from_str_legacy t ht
  · have hne : (⟨c⟩ : ShardCount) ≠ ⟨0⟩ := by simp [hc0]
    have hfmt : TenantShardId.fmt ⟨t, ⟨n⟩, ⟨c⟩⟩
        = TenantId.fmt t ++ '-' :: (byteToHex n ++ byteToHex c) := by
      unfold TenantShardId.fmt ShardSlug.fmt
      simp [hne]
    show TenantShardId.from_str (TenantShardId.fmt ⟨t, ⟨n⟩, ⟨c⟩⟩) = .ok ⟨t, ⟨n⟩, ⟨c⟩⟩
    rw [hfmt]
    exact TenantShardId.from_str_sharded t n c '-' ht hn hc

theorem TenantShardId.to_bytes_take (x : TenantShardId) (h : x.tenant_id.bytes.length = 16) :
    x.to_bytes.take 16 = x.tenant_id.bytes :=
  List.take_left' h

theorem TenantShardId.to_bytes_getD16 (x : TenantShardId)
    (h : x.tenant_id.bytes.length = 16) : x.to_bytes.getD 16 0 = x.shard_number.val := by
  unfold TenantShardId.to_bytes
  rw [getD_append_right _ _ 16 (by omega), h]
  rfl

theorem TenantShardId.to_bytes_getD17 (x : TenantShardId)
    (h : x.tenant_id.bytes.length = 16) : x.to_bytes.getD 17 0 = x.shard_count.val := by
  unfold TenantShardId.to_bytes
  rw [getD_append_right _ _ 17 (by omega), h]
  rfl

theorem TenantShardId.to_bytes_length (x : TenantShardId)
    (h : x.tenant_id.bytes.length = 16) : x.to_bytes.length = 18 := by
  unfold TenantShardId.to_bytes
  simp [h]

theorem TenantShardId.fromByteArray_to_bytes (x : TenantShardId)
    (h : x.tenant_id.bytes.length = 16) :
    TenantShardId.fromByteArray x.to_bytes = x := by
  obtain ⟨⟨bs⟩, ⟨n⟩, ⟨c⟩⟩ := x
  unfold TenantShardId.fromByteArray
  rw [TenantShardId.to_bytes_take _ h, TenantShardId.to_bytes_getD16 _ h,
    TenantShardId.to_bytes_getD17 _ h]

theorem ShardIndex.fromByteArray_to_bytes_index (x : ShardIndex) :
    ShardIndex.fromByteArray x.to_bytes = x := by
  obtain ⟨⟨n⟩, ⟨c⟩⟩ := x
  rfl

/-! ## Claim theorems -/

/-- C1: Text round-trip — for every `ShardIndex` x, `from_str (fmt x) = ok x`;
and for every `TenantShardId` x satisfying the validity invariant
(`shard_count == 0 → shard_number == 0`), `from_str (fmt x) = ok x`, in both
the legacy and sharded cases. -/
theorem text_round_trip :
    (∀ x : ShardIndex, x.valid → ShardIndex.from_str (ShardIndex.fmt x) = .ok x) ∧
    (∀ x : TenantShardId, x.wf → x.legacyOk →
      TenantShardId.from_str (TenantShardId.fmt x) = .ok x) :=
  ⟨fun x hx => ShardIndex.from_str_fmt_index x hx,
   fun x hw hleg => TenantShardId.from_str_fmt x hw hleg⟩

/-- Witness for C1 at shard index `{1, 4}` and the sharded tenant-shard id
with zero tenant bytes, shard number 2, shard count 8. -/
theorem text_round_trip_witness :
    ShardIndex.from_str (ShardIndex.fmt ⟨⟨1⟩, ⟨4⟩⟩) = .ok ⟨⟨1⟩, ⟨4⟩⟩ ∧
    TenantShardId.from_str (TenantShardId.fmt ⟨⟨List.replicate 16 0⟩, ⟨2⟩, ⟨8⟩⟩)
      = .ok ⟨⟨List.replicate 16 0⟩, ⟨2⟩, ⟨8⟩⟩ :=
  ⟨text_round_trip.1 ⟨⟨1⟩, ⟨4⟩⟩ (by decide),
   text_round_trip.2 ⟨⟨List.replicate 16 0⟩, ⟨2⟩, ⟨8⟩⟩ (by decide) (by decide)⟩

/-- C2: `TenantShardId::from_str` disambiguates by total length only: a
length-32 input parses the whole string as the tenant id with shard fields
zero (propagating tenant-parse errors); a length-37 input parses bytes
`0..32` as the tenant id and decodes bytes `33..37` as the shard pair while
accepting ANY character at index 32; any other length fails with
`InvalidStringLength`. -/
theorem tenant_shard_id_parse_disambiguation :
    (∀ s t, s.length = 32 → TenantId.from_str s = .ok t →
      TenantShardId.from_str s = .ok ⟨t, ⟨0⟩, ⟨0⟩⟩) ∧
    (∀ s e, s.length = 32 → TenantId.from_str s = .error e →
      TenantShardId.from_str s = .error e) ∧
    (∀ (t : TenantId) (sn sc : Nat) (c : Char), t.valid → sn < 256 → sc < 256 →
      TenantShardId.from_str (TenantId.fmt t ++ c :: (byteToHex sn ++ byteToHex sc))
        = .ok ⟨t, ⟨sn⟩, ⟨sc⟩⟩) ∧
    (∀ s : List Char, s.length ≠ 32 → s.length ≠ 37 →
      TenantShardId.from_str s = .error .InvalidStringLength) := by
  refine ⟨?_, ?_, ?_, ?_⟩
  · intro s t h32 hok
    unfold TenantShardId.from_str
    rw [h32, hok]
    rfl
  · intro s e h32 herr
    unfold TenantShardId.from_str
    rw [h32, herr]
    rfl
  · intro t sn sc c ht hn hc
    exact TenantShardId.from_str_sharded t sn sc c ht hn hc
  · intro s h32 h37
    unfold TenantShardId.from_str
    rw [if_neg h32, if_neg h37]

/-- Witness for C2: the all-zero length-32 input parses as legacy; a
length-37 input whose index-32 character is `'x'` (not `'-'`) is accepted;
a length-3 input fails with `InvalidStringLength`. -/
theorem tenant_shard_id_parse_disambiguation_witness :
    TenantShardId.from_str (List.replicate 32 '0')
      = .ok ⟨⟨List.replicate 16 0⟩, ⟨0⟩, ⟨0⟩⟩ ∧
    TenantShardId.from_str
        (TenantId.fmt ⟨List.replicate 16 0⟩ ++ 'x' :: (byteToHex 2 ++ byteToHex 8))
      = .ok ⟨⟨List.replicate 16 0⟩, ⟨2⟩, ⟨8⟩⟩ ∧
    TenantShardId.from_str ("010".toList) = .error .InvalidStringLength :=
  ⟨tenant_shard_id_parse_disambiguation.1 (List.replicate 32 '0') ⟨List.replicate 16 0⟩
      (by decide) (by decide),
   tenant_shard_id_parse_disambiguation.2.2.1 ⟨List.replicate 16 0⟩ 2 8 'x'
      (by decide) (by decide) (by decide),
   tenant_shard_id_parse_disambiguation.2.2.2 ("010".toList) (by decide) (by decide)⟩

/-- C3: the non-human-readable serialization of a `TenantShardId` packs
exactly 18 bytes — the 16 tenant-id bytes at positions `0..16`, the shard
number at 16 and the shard count at 17 — and `From<[u8; 18]>` applied to
that array recovers the value exactly. -/
theorem tenant_shard_id_binary_form (x : TenantShardId)
    (h : x.tenant_id.bytes.length = 16) :
    x.to_bytes.length = 18 ∧
    x.to_bytes.take 16 = x.tenant_id.bytes ∧
    x.to_bytes.getD 16 0 = x.shard_number.val ∧
    x.to_bytes.getD 17 0 = x.shard_count.val ∧
    TenantShardId.fromByteArray x.to_bytes = x :=
  ⟨TenantShardId.to_bytes_length x h, TenantShardId.to_bytes_take x h,
   TenantShardId.to_bytes_getD16 x h, TenantShardId.to_bytes_getD17 x h,
   TenantShardId.fromByteArray_to_bytes x h⟩

/-- Witness for C3 at the tenant-shard id with zero tenant bytes, shard
number 2, shard count 8 (whose packed form ends in bytes 2, 8). -/
theorem tenant_shard_id_binary_form_witness :
    (⟨⟨List.replicate 16 0⟩, ⟨2⟩, ⟨8⟩⟩ : TenantShardId).to_bytes.length = 18 ∧
    (⟨⟨List.replicate 16 0⟩, ⟨2⟩, ⟨8⟩⟩ : TenantShardId).to_bytes.take 16
      = (⟨⟨List.replicate 16 0⟩, ⟨2⟩, ⟨8⟩⟩ : TenantShardId).tenant_id.bytes ∧
    (⟨⟨List.replicate 16 0⟩, ⟨2⟩, ⟨8⟩⟩ : TenantShardId).to_bytes.getD 16 0
      = (⟨⟨List.replicate 16 0⟩, ⟨2⟩, ⟨8⟩⟩ : TenantShardId).shard_number.val ∧
    (⟨⟨List.replicate 16 0⟩, ⟨2⟩, ⟨8⟩⟩ : TenantShardId).to_bytes.getD 17 0
      = (⟨⟨List.replicate 16 0⟩, ⟨2⟩, ⟨8⟩⟩ : TenantShardId).shard_count.val ∧
    TenantShardId.fromByteArray (⟨⟨List.replicate 16 0⟩, ⟨2⟩, ⟨8⟩⟩ : TenantShardId).to_bytes
      = ⟨⟨List.replicate 16 0⟩, ⟨2⟩, ⟨8⟩⟩ :=
  tenant_shard_id_binary_form ⟨⟨List.replicate 16 0⟩, ⟨2⟩, ⟨8⟩⟩ (by decide)

/-- C4: a `TenantShardId` with `shard_count == 0` formats to exactly the
bare tenant-id text (32 characters for a well-formed tenant id); with
`shard_count != 0` it formats as tenant id, `'-'`, and the 4-hex-character
slug, 37 characters total. -/
theorem display_legacy_vs_sharded (x : TenantShardId) :
    (x.shard_count.val = 0 →
      TenantShardId.fmt x = TenantId.fmt x.tenant_id ∧
      (x.tenant_id.valid → (TenantShardId.fmt x).length = 32)) ∧
    (x.shard_count.val ≠ 0 →
      TenantShardId.fmt x = TenantId.fmt x.tenant_id
        ++ '-' :: (byteToHex x.shard_number.val ++ byteToHex x.shard_count.val) ∧
      (x.tenant_id.valid → (TenantShardId.fmt x).length = 37)) := by
  obtain ⟨t, ⟨n⟩, ⟨c⟩⟩ := x
  constructor
  · intro hc0
    have hc0' : c = 0 := hc0
    subst hc0'
    have hfmt : TenantShardId.fmt ⟨t, ⟨n⟩, ⟨0⟩⟩ = TenantId.fmt t := by
      unfold TenantShardId.fmt
      simp
    exact ⟨hfmt, fun ht => by rw [hfmt, TenantId.fmt_length t ht]⟩
  · intro hcne
    have hne : (⟨c⟩ : ShardCount) ≠ ⟨0⟩ := by
      intro h
      exact hcne (by cases h; rfl)
    have hfmt : TenantShardId.fmt ⟨t, ⟨n⟩, ⟨c⟩⟩
        = TenantId.fmt t ++ '-' :: (byteToHex n ++ byteToHex c) := by
      unfold TenantShardId.fmt ShardSlug.fmt
      simp [hne]
    refine ⟨hfmt, fun ht => ?_⟩
    rw [hfmt]
    simp [byteToHex, TenantId.fmt_length t ht]

/-- Witness for C4 at a legacy id (count 0) and a sharded id (number 2,
count 8) over the zero tenant id. -/
theorem display_legacy_vs_sharded_witness :
    TenantShardId.fmt ⟨⟨List.replicate 16 0⟩, ⟨0⟩, ⟨0⟩⟩
      = TenantId.fmt ⟨List.replicate 16 0⟩ ∧
    TenantShardId.fmt ⟨⟨List.replicate 16 0⟩, ⟨2⟩, ⟨8⟩⟩
      = TenantId.fmt ⟨List.replicate 16 0⟩ ++ '-' :: (byteToHex 2 ++ byteToHex 8) ∧
    (TenantShardId.fmt ⟨⟨List.replicate 16 0⟩, ⟨2⟩, ⟨8⟩⟩).length = 37 :=
  ⟨((display_legacy_vs_sharded ⟨⟨List.replicate 16 0⟩, ⟨0⟩, ⟨0⟩⟩).1 rfl).1,
   ((display_legacy_vs_sharded ⟨⟨List.replicate 16 0⟩, ⟨2⟩, ⟨8⟩⟩).2 (by decide)).1,
   ((display_legacy_vs_sharded ⟨⟨List.replicate 16 0⟩, ⟨2⟩, ⟨8⟩⟩).2 (by decide)).2 (by decide)⟩

/-- C5: the order on `TenantShardId` is lexicographic on
`(tenant_id, shard_number, shard_count)`: with equal tenant ids it reduces
to the `ShardIndex` comparison of the shard coordinates, with different
tenant ids it is decided by the tenant ids alone; and the order on
`ShardIndex` is lexicographic on `(shard_number, shard_count)`. -/
theorem ordering_lexicographic :
    (∀ a b : TenantShardId, a.tenant_id = b.tenant_id →
      TenantShardId.cmp a b
        = ShardIndex.cmp ⟨a.shard_number, a.shard_count⟩ ⟨b.shard_number, b.shard_count⟩) ∧
    (∀ a b : TenantShardId, a.tenant_id ≠ b.tenant_id →
      TenantShardId.cmp a b = TenantId.cmp a.tenant_id b.tenant_id) ∧
    (∀ x y : ShardIndex, ShardIndex.cmp x y
      = (cmpNat x.shard_number.val y.shard_number.val).then
          (cmpNat x.shard_count.val y.shard_count.val)) := by
  refine ⟨?_, ?_, ?_⟩
  · intro a b hteq
    unfold TenantShardId.cmp ShardIndex.cmp
    rw [hteq, (TenantId.cmp_eq_iff _ _).mpr rfl]
    rfl
  · intro a b htne
    unfold TenantShardId.cmp
    exact ordering_then_of_ne _ _ (fun h => htne ((TenantId.cmp_eq_iff _ _).mp h))
  · intro x y
    rfl

/-- Witness for C5: same-tenant comparison reduces to the shard
coordinates; different-tenant comparison ignores them. -/
theorem ordering_lexicographic_witness :
    TenantShardId.cmp ⟨⟨List.replicate 16 0⟩, ⟨1⟩, ⟨2⟩⟩ ⟨⟨List.replicate 16 0⟩, ⟨3⟩, ⟨0⟩⟩
      = ShardIndex.cmp ⟨⟨1⟩, ⟨2⟩⟩ ⟨⟨3⟩, ⟨0⟩⟩ ∧
    TenantShardId.cmp ⟨⟨List.replicate 16 0⟩, ⟨9⟩, ⟨9⟩⟩ ⟨⟨List.replicate 16 1⟩, ⟨0⟩, ⟨0⟩⟩
      = TenantId.cmp ⟨List.replicate 16 0⟩ ⟨List.replicate 16 1⟩ :=
  ⟨ordering_lexicographic.1 ⟨⟨List.replicate 16 0⟩, ⟨1⟩, ⟨2⟩⟩ ⟨⟨List.replicate 16 0⟩, ⟨3⟩, ⟨0⟩⟩ rfl,
   ordering_lexicographic.2.1 ⟨⟨List.replicate 16 0⟩, ⟨9⟩, ⟨9⟩⟩ ⟨⟨List.replicate 16 1⟩, ⟨0⟩, ⟨0⟩⟩
      (by decide)⟩

/-- C6: serializing through a human-readable serializer yields exactly the
text (Display) form as a string, through a non-human-readable serializer
the packed byte array (2 bytes for `ShardIndex`, 18 for `TenantShardId`);
deserializing each output back reproduces the original value. -/
theorem dual_mode_serialization :
    (∀ x : ShardIndex, x.valid →
      ShardIndex.serialize true x = .str (ShardIndex.fmt x) ∧
      ShardIndex.serialize false x = .bytes (ShardIndex.to_bytes x) ∧
      (ShardIndex.to_bytes x).length = 2 ∧
      ShardIndex.deserialize (ShardIndex.serialize true x) = .ok x ∧
      ShardIndex.deserialize (ShardIndex.serialize false x) = .ok x) ∧
    (∀ y : TenantShardId, y.wf → y.legacyOk →
      TenantShardId.serialize true y = .str (TenantShardId.fmt y) ∧
      TenantShardId.serialize false y = .bytes (TenantShardId.to_bytes y) ∧
      (TenantShardId.to_bytes y).length = 18 ∧
      TenantShardId.deserialize (TenantShardId.serialize true y) = .ok y ∧
      TenantShardId.deserialize (TenantShardId.serialize false y) = .ok y) := by
  constructor
  · intro x hx
    refine ⟨rfl, rfl, ?_, ?_, ?_⟩
    · rfl
    · show ShardIndex.deserialize (.str (ShardIndex.fmt x)) = .ok x
      simp only [ShardIndex.deserialize, ShardIndex.from_str_fmt_index x hx]
    · show ShardIndex.deserialize (.bytes (ShardIndex.to_bytes x)) = .ok x
      obtain ⟨⟨n⟩, ⟨c⟩⟩ := x
      rfl
  · intro y hw hleg
    have h16 : y.tenant_id.bytes.length = 16 := hw.1.1
    refine ⟨rfl, rfl, TenantShardId.to_bytes_length y h16, ?_, ?_⟩
    · show TenantShardId.deserialize (.str (TenantShardId.fmt y)) = .ok y
      simp only [TenantShardId.deserialize, TenantShardId.from_str_fmt y hw hleg]
    · show TenantShardId.deserialize (.bytes (TenantShardId.to_bytes y)) = .ok y
      simp only [TenantShardId.deserialize, TenantShardId.to_bytes_length y h16,
        if_true, TenantShardId.fromByteArray_to_bytes y h16]

/-- Witness for C6 at shard index `{1, 4}` and the sharded tenant-shard id
with zero tenant bytes, shard number 2, shard count 8. -/
theorem dual_mode_serialization_witness :
    ShardIndex.deserialize (ShardIndex.serialize true ⟨⟨1⟩, ⟨4⟩⟩) = .ok ⟨⟨1⟩, ⟨4⟩⟩ ∧
    ShardIndex.deserialize (ShardIndex.serialize false ⟨⟨1⟩, ⟨4⟩⟩) = .ok ⟨⟨1⟩, ⟨4⟩⟩ ∧
    TenantShardId.deserialize
        (TenantShardId.serialize true ⟨⟨List.replicate 16 0⟩, ⟨2⟩, ⟨8⟩⟩)
      = .ok ⟨⟨List.replicate 16 0⟩, ⟨2⟩, ⟨8⟩⟩ ∧
    TenantShardId.deserialize
        (TenantShardId.serialize false ⟨⟨List.replicate 16 0⟩, ⟨2⟩, ⟨8⟩⟩)
      = .ok ⟨⟨List.replicate 16 0⟩, ⟨2⟩, ⟨8⟩⟩ :=
  ⟨(dual_mode_serialization.1 ⟨⟨1⟩, ⟨4⟩⟩ (by decide)).2.2.2.1,
   (dual_mode_serialization.1 ⟨⟨1⟩, ⟨4⟩⟩ (by decide)).2.2.2.2,
   (dual_mode_serialization.2 ⟨⟨List.replicate 16 0⟩, ⟨2⟩, ⟨8⟩⟩
      (by decide) (by decide)).2.2.2.1,
   (dual_mode_serialization.2 ⟨⟨List.replicate 16 0⟩, ⟨2⟩, ⟨8⟩⟩
      (by decide) (by decide)).2.2.2.2⟩

/-- C7: `ShardIndex::from_str` fails with `InvalidStringLength` on every
input whose length is not 4 (the length check runs before any hex
decoding), and with `InvalidHexCharacter` on every 4-character input
containing a non-hex character; concretely, parsing `"zz01"` reports the
invalid character `'z'` at index 0 and parsing `"010"` reports
`InvalidStringLength`. -/
theorem shard_index_parse_errors :
    (∀ s : List Char, s.length ≠ 4 →
      ShardIndex.from_str s = .error .InvalidStringLength) ∧
    (∀ s : List Char, s.length = 4 → (∃ c ∈ s, hexVal c = none) →
      ∃ c i, ShardIndex.from_str s = .error (.InvalidHexCharacter c i)) ∧
    ShardIndex.from_str ("zz01".toList) = .error (.InvalidHexCharacter 'z' 0) ∧
    ShardIndex.from_str ("010".toList) = .error .InvalidStringLength := by
  refine ⟨?_, ?_, by decide, by decide⟩
  · intro s h4
    unfold ShardIndex.from_str
    rw [if_neg h4]
  · intro s h4 hbad
    match s, h4 with
    | [c0, c1, c2, c3], _ =>
      unfold ShardIndex.from_str hexDecode2 hexValE
      rcases h0 : hexVal c0 with _ | v0
      · exact ⟨c0, 0, by simp [h0]⟩
      rcases h1 : hexVal c1 with _ | v1
      · exact ⟨c1, 1, by simp [h0, h1]⟩
      rcases h2 : hexVal c2 with _ | v2
      · exact ⟨c2, 2, by simp [h0, h1, h2]⟩
      rcases h3 : hexVal c3 with _ | v3
      · exact ⟨c3, 3, by simp [h0, h1, h2, h3]⟩
      obtain ⟨c, hc, hnone⟩ := hbad
      simp only [List.mem_cons, List.not_mem_nil, or_false] at hc
      rcases hc with rfl | rfl | rfl | rfl <;> simp_all

/-- Witness for C7: the theorem's two hypothesis-bearing parts applied at
`"010"` (wrong length) and `"zz01"` (bad hex digit). -/
theorem shard_index_parse_errors_witness :
    ShardIndex.from_str ("010".toList) = .error .InvalidStringLength ∧
    ∃ c i, ShardIndex.from_str ("zz01".toList) = .error (.InvalidHexCharacter c i) :=
  ⟨shard_index_parse_errors.1 ("010".toList) (by decide),
   shard_index_parse_errors.2.1 ("zz01".toList) (by decide) ⟨'z', by decide, by decide⟩⟩

/-- C8: for every `ShardIndex` and every `TenantShardId`, the Debug output
is byte-identical to the Display output. -/
theorem debug_eq_display :
    (∀ x : ShardIndex, ShardIndex.debugFmt x = ShardIndex.fmt x) ∧
    (∀ y : TenantShardId, TenantShardId.debugFmt y = TenantShardId.fmt y) :=
  ⟨fun _ => rfl, fun _ => rfl⟩

/-- C9 counterexample: the 37-character input with slug `"0100"` parses
successfully to `shard_number = 1`, `shard_count = 0`, so text parsing does
NOT always preserve the legacy sentinel invariant. -/
theorem legacy_invariant_counterexample :
    TenantShardId.from_str ("00000000000000000000000000000000-0100".toList)
      = .ok ⟨⟨List.replicate 16 0⟩, ⟨1⟩, ⟨0⟩⟩ ∧
    (⟨⟨List.replicate 16 0⟩, ⟨1⟩, ⟨0⟩⟩ : TenantShardId).shard_count.val = 0 ∧
    (⟨⟨List.replicate 16 0⟩, ⟨1⟩, ⟨0⟩⟩ : TenantShardId).shard_number.val ≠ 0 :=
  ⟨by decide, rfl, by decide⟩

/-- C9 (amended): only the length-32 branch of `TenantShardId::from_str`
preserves the legacy sentinel invariant (it fixes both shard fields to 0);
the length-37 branch can produce `shard_count = 0` with `shard_number ≠ 0`
(slug `"0100"`), and `From<[u8; 18]>` performs no check either. -/
theorem legacy_invariant_amended :
    (∀ s t, s.length = 32 → TenantShardId.from_str s = .ok t →
      t.shard_number = ⟨0⟩ ∧ t.shard_count = ⟨0⟩) ∧
    TenantShardId.from_str ("00000000000000000000000000000000-0100".toList)
      = .ok ⟨⟨List.replicate 16 0⟩, ⟨1⟩, ⟨0⟩⟩ ∧
    TenantShardId.fromByteArray (List.replicate 16 0 ++ [1, 0])
      = ⟨⟨List.replicate 16 0⟩, ⟨1⟩, ⟨0⟩⟩ := by
  refine ⟨?_, by decide, by decide⟩
  intro s t h32 hok
  unfold TenantShardId.from_str at hok
  rw [h32] at hok
  simp only [if_pos rfl] at hok
  rcases hts : TenantId.from_str s with e | t'
  · rw [hts] at hok
    cases hok
  · rw [hts] at hok
    cases hok
    exact ⟨rfl, rfl⟩

/-- Witness for C9 (amended): the legacy branch applied to the all-zero
length-32 input. -/
theorem legacy_invariant_amended_witness :
    (⟨⟨List.replicate 16 0⟩, ⟨0⟩, ⟨0⟩⟩ : TenantShardId).shard_number = ⟨0⟩ ∧
    (⟨⟨List.replicate 16 0⟩, ⟨0⟩, ⟨0⟩⟩ : TenantShardId).shard_count = ⟨0⟩ :=
  legacy_invariant_amended.1 (List.replicate 32 '0') ⟨⟨List.replicate 16 0⟩, ⟨0⟩, ⟨0⟩⟩
    (by decide) (by decide)

/-- C10: hex parsing is case-insensitive — `"01AF"` parses like `"01af"`
for `ShardIndex`, and an uppercase slug in a 37-character input parses like
its lowercase equivalent, even though the spec's external-interface regexes
admit only lowercase digits. -/
theorem hex_parse_case_insensitive :
    ShardIndex.from_str ("01AF".toList) = .ok ⟨⟨1⟩, ⟨175⟩⟩ ∧
    ShardIndex.from_str ("01AF".toList) = ShardIndex.from_str ("01af".toList) ∧
    TenantShardId.from_str ("00000000000000000000000000000000-01AF".toList)
      = TenantShardId.from_str ("00000000000000000000000000000000-01af".toList) ∧
    TenantShardId.from_str ("00000000000000000000000000000000-01AF".toList)
      = .ok ⟨⟨List.replicate 16 0⟩, ⟨1⟩, ⟨175⟩⟩ :=
  ⟨by decide, by decide, by decide, by decide⟩

end Shard
